import Mathlib

/-
Verification of the asynchronous I2C command engine of the VU_meter firmware
(src/src/i2c_async.c).

The engine state (the C global `I2C_QUEUE`) is embedded as a Lean structure.
Command buffers are embedded as lists of commands: the C `length` field is the
list length, and the fixed capacity `I2C_BUFFER_SIZE` (a configuration macro,
its header is not part of src/) is a `cap` parameter of every operation that
checks capacity.  The task ring buffer (`ring_buffer.h` is not part of src/)
is modelled from the spec as a FIFO list with a capacity parameter `qcap`.
The hardware primitive layer (`i2c_hw.h`, an external collaborator per the
spec) is modelled as ghost events appended to a trace, and the fault facility
(`fault.h`) together with the `assert` macro is modelled as an `Except` error:
both are terminal per the spec, so an error aborts the run.

The C state machine is a cluster of mutually recursive functions
(`i2c_queue_process_command`, `i2c_queue_fetch_commands`,
`i2c_queue_start_transmitter`); its recursion is embedded with an explicit
fuel argument in the single structurally recursive function `engineStep`,
one match arm per C function, and thin wrappers restore the source names.
`uint8_t` counters that the source increments or decrements are reduced
modulo 256 where they are written.
-/

namespace I2CAsync

/-- Command codes, from the C enum `i2c_command_code_t`. -/
def I2C_COMMAND_START : Nat := 0x01

def I2C_COMMAND_SEND_DATA : Nat := 0x02

def I2C_COMMAND_STOP : Nat := 0x03

def I2C_COMMAND_PENDING : Nat := 0x04

/-- `i2c_command_t`: a command code together with a data byte. -/
structure I2CCommand where
  code : Nat
  data : Nat
  deriving DecidableEq, Repr

/-- Fault categories of the external fault facility (`fault.h` is not part of
src/).  Modelled from the spec: the fault facility takes a category, a numeric
code and a description and is terminal.  Only the I2C category appears here. -/
inductive FaultCategory where
  | FAULT_I2C
  deriving DecidableEq, Repr

/-- Terminal outcomes: a failed `assert`, a call of the fault facility, or
exhaustion of the recursion fuel of the embedding. -/
inductive I2CFault where
  | assertFail (msg : String)
  | fault (category : FaultCategory) (code : Nat) (msg : String)
  | outOfFuel
  deriving DecidableEq, Repr

/-- Ghost observation events.  The four bus events record calls of the
hardware primitives `i2c_hw_send_start_condition_int`, `i2c_hw_send_byte_int`,
`i2c_hw_send_stop_condition` and `i2c_hw_disable_int`; the task events record
callback invocation, task enqueue and task removal, carrying the task address
as identifier. -/
inductive I2CEvent where
  | busStart
  | busSendByte (b : Nat)
  | busStop
  | busDisableInt
  | cbInvoke (address : Nat)
  | taskEnqueued (address : Nat)
  | taskRemoved (address : Nat)
  deriving DecidableEq, Repr

/-- Whether an event is a call of a hardware bus primitive. -/
def I2CEvent.isBusOp : I2CEvent → Bool
  | .busStart => true
  | .busSendByte _ => true
  | .busStop => true
  | .busDisableInt => true
  | _ => false

/-- A producer callback (`i2c_callback_t`): given the buffer capacity, its
context (the C `void *data`, mutated in place through the pointer, so the
updated context is returned), the head task's address and the current back
buffer, it returns the new back buffer, the new context, and whether the task
still has more to produce.  Capacity violations and assertion failures inside
the producer API surface as errors. -/
def I2CCallback (Ctx : Type) : Type :=
  Nat → Ctx → Nat → List I2CCommand → Except I2CFault (List I2CCommand × Ctx × Bool)

/-- `i2c_task_t`: callback, context, target address. -/
structure I2CTask (Ctx : Type) where
  callback : I2CCallback Ctx
  data : Ctx
  address : Nat

/-- The engine state, the C global `I2C_QUEUE` (`i2c_queue_t`).  The two
command buffers are represented by their live contents (`length` = list
length); the task ring buffer is the FIFO list `tasks` (head = oldest).
`trace` is a ghost event log and `int_enabled` a ghost flag tracking the
transmit-interrupt enable bit (set by the `_int` send primitives, cleared by
`i2c_hw_disable_int`); neither exists in the C struct. -/
structure I2CState (Ctx : Type) where
  tasks : List (I2CTask Ctx)
  front_buffer : List I2CCommand
  back_buffer : List I2CCommand
  transmitter_active : Bool
  pending_buffer_switch : Bool
  tasks_n : Nat
  front_buffer_cursor : Nat
  current_command : I2CCommand
  trace : List I2CEvent
  int_enabled : Bool

/-- `i2c_queue_switch_buffers`: asserts back length > 0 and front fully
consumed, exchanges the buffers, clears the switch request, resets the new
back buffer's length and the cursor, and caches the command at position 0 of
the new front buffer. -/
def i2c_queue_switch_buffers {Ctx : Type} (s : I2CState Ctx) :
    Except I2CFault (I2CState Ctx) :=
  if s.back_buffer.length = 0 then
    .error (.assertFail "back_buffer length positive")
  else if s.front_buffer_cursor ≠ s.front_buffer.length then
    .error (.assertFail "front_buffer consumed")
  else
    .ok { s with
      front_buffer := s.back_buffer
      back_buffer := []
      pending_buffer_switch := false
      front_buffer_cursor := 0
      current_command := s.back_buffer.getD 0 { code := 0, data := 0 } }

/-- `i2c_queue_switch_tasks`: asserts the ring buffer can deliver one element,
discards the head task and decrements the `uint8_t` counter `tasks_n`
(modulo 256).  The removal is logged as a ghost event. -/
def i2c_queue_switch_tasks {Ctx : Type} (s : I2CState Ctx) :
    Except I2CFault (I2CState Ctx) :=
  match s.tasks with
  | [] => .error (.assertFail "ring_buffer can read 1")
  | t :: rest =>
    .ok { s with
      tasks := rest
      tasks_n := (s.tasks_n + 255) % 256
      trace := s.trace ++ [I2CEvent.taskRemoved t.address] }

/-- The non-`Pending` arms of the `switch` in `i2c_queue_process_command`:
issue the hardware primitive for the current command (`SendData`, `Start`,
`Stop`; `Stop` also deactivates the transmitter), or report a fatal fault for
an unrecognized code.  The caller handles `Pending` before calling this. -/
def i2c_dispatch_current {Ctx : Type} (s : I2CState Ctx) :
    Except I2CFault (I2CState Ctx) :=
  if s.current_command.code = I2C_COMMAND_SEND_DATA then
    .ok { s with
      trace := s.trace ++ [I2CEvent.busSendByte s.current_command.data]
      int_enabled := true }
  else if s.current_command.code = I2C_COMMAND_START then
    .ok { s with trace := s.trace ++ [I2CEvent.busStart], int_enabled := true }
  else if s.current_command.code = I2C_COMMAND_STOP then
    .ok { s with
      trace := s.trace ++ [I2CEvent.busStop]
      transmitter_active := false }
  else
    .error (.fault FaultCategory.FAULT_I2C s.current_command.code
      "Invalid command")

/-- Names for the four mutually recursive C state-machine functions. -/
inductive EngineCall where
  | processCommand
  | fetchCommands
  | fetchLoop
  | startTransmitter
  deriving DecidableEq, Repr

/-- The state-machine cluster of i2c_async.c, one arm per C function:
`processCommand` is `i2c_queue_process_command`, `fetchCommands` is the entry
of `i2c_queue_fetch_commands` (its preamble asserts), `fetchLoop` is that
function's `do`-loop, `startTransmitter` is `i2c_queue_start_transmitter`.
The C functions are mutually recursive; `fuel` bounds the recursion depth and
every recursive call spends one unit. -/
def engineStep {Ctx : Type} (cap qcap : Nat) :
    Nat → EngineCall → I2CState Ctx → Except I2CFault (I2CState Ctx)
  | 0, _, _ => .error .outOfFuel
  | Nat.succ fuel, EngineCall.processCommand, s =>
    if s.transmitter_active = false then
      .error (.assertFail "transmitter_active")
    else if s.front_buffer.length = 0 then
      .error (.assertFail "front_buffer length positive")
    else if s.front_buffer.length < s.front_buffer_cursor then
      .error (.assertFail "front_buffer_cursor in range")
    else if s.current_command.code = I2C_COMMAND_PENDING then
      -- Run out of data...
      if s.pending_buffer_switch then
        -- But more is waiting, so just switch and we're good to go
        match i2c_queue_switch_buffers s with
        | .error f => .error f
        | .ok s1 =>
          match engineStep cap qcap fuel EngineCall.processCommand s1 with
          | .error f => .error f
          | .ok s2 =>
            if 0 < s2.tasks_n then
              engineStep cap qcap fuel EngineCall.fetchCommands s2
            else
              .ok s2
      else
        -- No more data waiting - disable transmitter interrupt and exit
        .ok { s with
          trace := s.trace ++ [I2CEvent.busDisableInt]
          int_enabled := false
          transmitter_active := false }
    else
      match i2c_dispatch_current s with
      | .error f => .error f
      | .ok s1 =>
        let cursor1 := (s1.front_buffer_cursor + 1) % 256
        if cursor1 = s1.front_buffer.length then
          if s1.pending_buffer_switch then
            -- Producer is done, we can switch buffers now.
            match i2c_queue_switch_buffers
                { s1 with front_buffer_cursor := cursor1 } with
            | .error f => .error f
            | .ok s2 =>
              -- If previous buffer ended on stop condition, we have to
              -- manually process next command.
              match (if s2.transmitter_active = false then
                  engineStep cap qcap fuel EngineCall.startTransmitter s2
                else .ok s2) with
              | .error f => .error f
              | .ok s3 =>
                if 0 < s3.tasks_n then
                  engineStep cap qcap fuel EngineCall.fetchCommands s3
                else
                  .ok s3
          else
            .ok { s1 with
              front_buffer_cursor := cursor1
              current_command :=
                { s1.current_command with code := I2C_COMMAND_PENDING } }
        else
          if s1.transmitter_active = false then
            .error (.assertFail "transmitter_active after advance")
          else
            .ok { s1 with
              front_buffer_cursor := cursor1
              current_command :=
                s1.front_buffer.getD cursor1 { code := 0, data := 0 } }
  | Nat.succ fuel, EngineCall.fetchCommands, s =>
    if s.tasks_n = 0 then
      .error (.assertFail "tasks_n positive")
    else if s.pending_buffer_switch then
      .error (.assertFail "no pending_buffer_switch")
    else
      engineStep cap qcap fuel EngineCall.fetchLoop s
  | Nat.succ fuel, EngineCall.fetchLoop, s =>
    if s.tasks_n = 0 then
      .ok s
    else
      match s.tasks with
      | [] => .error (.assertFail "ring_buffer_get_first nonempty")
      | t :: rest =>
        if s.back_buffer.length ≠ 0 then
          .error (.assertFail "back_buffer empty before callback")
        else
          match t.callback cap t.data t.address s.back_buffer with
          | .error f => .error f
          | .ok (back1, ctx1, keep) =>
            let s1 : I2CState Ctx := { s with
              back_buffer := back1
              tasks := { t with data := ctx1 } :: rest
              trace := s.trace ++ [I2CEvent.cbInvoke t.address] }
            if back1.length = 0 then
              .error (.assertFail "back_buffer grown by callback")
            else
              match (if keep = false then i2c_queue_switch_tasks s1
                else .ok s1) with
              | .error f => .error f
              | .ok s2 =>
                if s2.transmitter_active = false then
                  -- Other buffer was sent in full, we start processing next
                  -- command and proceed to produce more commands immediately.
                  match i2c_queue_switch_buffers s2 with
                  | .error f => .error f
                  | .ok s3 =>
                    match engineStep cap qcap fuel
                        EngineCall.startTransmitter s3 with
                    | .error f => .error f
                    | .ok s4 =>
                      engineStep cap qcap fuel EngineCall.fetchLoop s4
                else
                  -- We finished before sending the other buffer,
                  -- schedule the switch
                  .ok { s2 with pending_buffer_switch := true }
  | Nat.succ fuel, EngineCall.startTransmitter, s =>
    if s.transmitter_active then
      .error (.assertFail "transmitter not active yet")
    else if s.current_command.code = I2C_COMMAND_PENDING then
      .error (.assertFail "current_command not pending")
    else
      engineStep cap qcap fuel EngineCall.processCommand
        { s with transmitter_active := true }

/-- `i2c_queue_process_command`, as a wrapper of the step cluster. -/
def i2c_queue_process_command {Ctx : Type} (cap qcap fuel : Nat)
    (s : I2CState Ctx) : Except I2CFault (I2CState Ctx) :=
  engineStep cap qcap fuel EngineCall.processCommand s

/-- `i2c_queue_fetch_commands`, as a wrapper of the step cluster. -/
def i2c_queue_fetch_commands {Ctx : Type} (cap qcap fuel : Nat)
    (s : I2CState Ctx) : Except I2CFault (I2CState Ctx) :=
  engineStep cap qcap fuel EngineCall.fetchCommands s

/-- `i2c_queue_start_transmitter`, as a wrapper of the step cluster. -/
def i2c_queue_start_transmitter {Ctx : Type} (cap qcap fuel : Nat)
    (s : I2CState Ctx) : Except I2CFault (I2CState Ctx) :=
  engineStep cap qcap fuel EngineCall.startTransmitter s

/-- avr-libc TWI status codes (`util/twi.h`), masked values of `TWSR`. -/
def TW_BUS_ERROR : Nat := 0x00

def TW_START : Nat := 0x08

def TW_REP_START : Nat := 0x10

def TW_MT_SLA_ACK : Nat := 0x18

def TW_MT_SLA_NACK : Nat := 0x20

def TW_MT_DATA_ACK : Nat := 0x28

def TW_MT_DATA_NACK : Nat := 0x30

def TW_MT_ARB_LOST : Nat := 0x38

/-- `ISR(TWI_vect)`: the bus interrupt handler.  `i2c_status` is the masked
status register value reported by the hardware; a status above
`TW_MT_DATA_ACK` or equal to `TW_MT_SLA_NACK` is reported as a fatal fault
carrying the raw status, otherwise the next command is processed. -/
def ISR_TWI_vect {Ctx : Type} (cap qcap fuel : Nat) (i2c_status : Nat)
    (s : I2CState Ctx) : Except I2CFault (I2CState Ctx) :=
  if TW_MT_DATA_ACK < i2c_status ∨ i2c_status = TW_MT_SLA_NACK then
    .error (.fault FaultCategory.FAULT_I2C i2c_status "Error status")
  else
    i2c_queue_process_command cap qcap fuel s

/-- `i2c_init`: the engine state after initialization. -/
def i2c_init_state (Ctx : Type) : I2CState Ctx where
  tasks := []
  front_buffer := []
  back_buffer := []
  transmitter_active := false
  pending_buffer_switch := false
  tasks_n := 0
  front_buffer_cursor := 0
  current_command := { code := I2C_COMMAND_PENDING, data := 0 }
  trace := []
  int_enabled := false

/-- `i2c_is_idle`: true iff the transmitter is inactive and no task is
counted.  The C function reads both fields inside one atomic block. -/
def i2c_is_idle {Ctx : Type} (s : I2CState Ctx) : Bool :=
  (!s.transmitter_active) && (s.tasks_n == 0)

/-- `i2c_transmit_async`: asserts ring capacity for one more element, appends
the task at the tail, increments the `uint8_t` counter `tasks_n` (modulo 256)
and, when the engine was idle at entry (the snapshot is taken before the
increment, as in the C), runs the fetch cycle.  The enqueue is logged as a
ghost event. -/
def i2c_transmit_async {Ctx : Type} (cap qcap fuel : Nat) (address : Nat)
    (callback : I2CCallback Ctx) (data : Ctx) (s : I2CState Ctx) :
    Except I2CFault (I2CState Ctx) :=
  if qcap ≤ s.tasks.length then
    .error (.assertFail "ring_buffer can write 1")
  else
    let idle := i2c_is_idle s
    let task : I2CTask Ctx :=
      { callback := callback, data := data, address := address }
    let s1 : I2CState Ctx := { s with
      tasks := s.tasks ++ [task]
      tasks_n := (s.tasks_n + 1) % 256
      trace := s.trace ++ [I2CEvent.taskEnqueued address] }
    if idle then
      i2c_queue_fetch_commands cap qcap fuel s1
    else
      .ok s1

/- Producer command-emission API.  These operate on the back buffer; the
engine passes the head task's address to `i2c_async_send_start` (the C
function reads it through `ring_buffer_get_first`, guarded by the same
can-read assertion the fetch cycle already established). -/

/-- `i2c_produce_command`: asserts one free slot, appends a command to the
back buffer. -/
def i2c_produce_command (cap : Nat) (code data : Nat)
    (back : List I2CCommand) : Except I2CFault (List I2CCommand) :=
  if 1 ≤ cap - back.length then
    .ok (back ++ [{ code := code, data := data }])
  else
    .error (.assertFail "back_buffer capacity 1")

/-- `i2c_async_send_byte`: appends one `SendData` command. -/
def i2c_async_send_byte (cap : Nat) (data : Nat) (back : List I2CCommand) :
    Except I2CFault (List I2CCommand) :=
  i2c_produce_command cap I2C_COMMAND_SEND_DATA data back

/-- `i2c_async_send_bytes`: asserts `n > 0` and `n` free slots, appends one
`SendData` command per byte.  The C array argument and its length `n` are the
list `data` and its length. -/
def i2c_async_send_bytes (cap : Nat) (data : List Nat)
    (back : List I2CCommand) : Except I2CFault (List I2CCommand) :=
  if data.length = 0 then
    .error (.assertFail "n positive")
  else if data.length ≤ cap - back.length then
    .ok (back ++ data.map (fun b =>
      { code := I2C_COMMAND_SEND_DATA, data := b }))
  else
    .error (.assertFail "back_buffer capacity n")

/-- `i2c_async_send_start`: appends a `Start` command, asserts the write
direction bit of the head task's address is clear, and appends the address
byte. -/
def i2c_async_send_start (cap : Nat) (address : Nat)
    (back : List I2CCommand) : Except I2CFault (List I2CCommand) :=
  match i2c_produce_command cap I2C_COMMAND_START 0 back with
  | .error f => .error f
  | .ok back1 =>
    if address % 2 ≠ 0 then
      .error (.assertFail "address low bit clear")
    else
      i2c_produce_command cap I2C_COMMAND_SEND_DATA address back1

/-- `i2c_async_end_transmission`: appends a `Stop` command. -/
def i2c_async_end_transmission (cap : Nat) (back : List I2CCommand) :
    Except I2CFault (List I2CCommand) :=
  i2c_produce_command cap I2C_COMMAND_STOP 0 back

/-- Hardware interrupt delivery loop: models `i2c_wait` (busy-polling
`i2c_is_idle`) together with the hardware raising one transmit interrupt per
completed bus primitive, each reporting an acknowledge status
(`TW_MT_DATA_ACK`).  `steps` bounds the number of interrupts delivered. -/
def i2c_drive {Ctx : Type} (cap qcap fuel : Nat) :
    Nat → I2CState Ctx → Except I2CFault (I2CState Ctx)
  | 0, s => if i2c_is_idle s then .ok s else .error .outOfFuel
  | Nat.succ n, s =>
    if i2c_is_idle s then
      .ok s
    else
      match ISR_TWI_vect cap qcap fuel TW_MT_DATA_ACK s with
      | .error f => .error f
      | .ok s1 => i2c_drive cap qcap fuel n s1

/-- The bus primitives issued so far, in order. -/
def busTrace {Ctx : Type} (s : I2CState Ctx) : List I2CEvent :=
  s.trace.filter I2CEvent.isBusOp

/-- `transmit_progmem_t`: control block of the program-storage transfer
helper.  The C `const uint8_t *data` region is the list `data` read by
`pgm_read_byte` at offset `counter`. -/
structure transmit_progmem_t where
  length : Nat
  counter : Nat
  data : List Nat
  deriving DecidableEq, Repr

/-- The `for` loop body of `i2c_transmit_progmem_cb`: up to `i` iterations,
each sending one byte from program storage while `counter < length`. -/
def i2c_progmem_chunk (cap : Nat) :
    Nat → transmit_progmem_t → List I2CCommand →
    Except I2CFault (List I2CCommand × transmit_progmem_t)
  | 0, ctrl, back => .ok (back, ctrl)
  | Nat.succ i, ctrl, back =>
    if ctrl.counter < ctrl.length then
      match i2c_async_send_byte cap (ctrl.data.getD ctrl.counter 0) back with
      | .error f => .error f
      | .ok back1 =>
        i2c_progmem_chunk cap i { ctrl with counter := ctrl.counter + 1 } back1
    else
      .ok (back, ctrl)

/-- `i2c_transmit_progmem_cb`: the producer callback of the program-storage
transfer helper.  On the first invocation (`counter == 0`) it emits the
`Start`/address pair; while bytes remain it emits up to 16 of them and keeps
the task; once `counter` reaches `length` it resets the counter, emits `Stop`
and signals completion. -/
def i2c_transmit_progmem_cb (cap : Nat) (ctrl : transmit_progmem_t)
    (address : Nat) (back : List I2CCommand) :
    Except I2CFault (List I2CCommand × transmit_progmem_t × Bool) :=
  match (if ctrl.counter = 0 then i2c_async_send_start cap address back
    else .ok back) with
  | .error f => .error f
  | .ok back1 =>
    if ctrl.counter < ctrl.length then
      match i2c_progmem_chunk cap 16 ctrl back1 with
      | .error f => .error f
      | .ok (back2, ctrl2) => .ok (back2, ctrl2, true)
    else
      match i2c_async_end_transmission cap back1 with
      | .error f => .error f
      | .ok back2 => .ok (back2, { ctrl with counter := 0 }, false)

/-- `i2c_transmit_progmem`: enqueues a task driven by
`i2c_transmit_progmem_cb` over the given region and blocks until the engine
is idle (`i2c_wait`, with interrupt delivery modelled by `i2c_drive`). -/
def i2c_transmit_progmem (cap qcap fuel steps : Nat) (address : Nat)
    (data : List Nat) (length : Nat) (s : I2CState transmit_progmem_t) :
    Except I2CFault (I2CState transmit_progmem_t) :=
  match i2c_transmit_async cap qcap fuel address i2c_transmit_progmem_cb
      { length := length, counter := 0, data := data } s with
  | .error f => .error f
  | .ok s1 => i2c_drive cap qcap fuel steps s1

/-- One externally triggered engine entry: a call of `i2c_transmit_async`
(ordinary program flow) or one bus interrupt with a hardware-reported
status. -/
inductive I2COperation (Ctx : Type) where
  | transmit (address : Nat) (callback : I2CCallback Ctx) (data : Ctx)
  | busInterrupt (i2c_status : Nat)

/-- Runs a sequence of externally triggered operations against the engine:
an arbitrary interleaving of enqueues and interrupt-driven drain steps. -/
def i2c_run_ops {Ctx : Type} (cap qcap fuel : Nat) :
    List (I2COperation Ctx) → I2CState Ctx → Except I2CFault (I2CState Ctx)
  | [], s => .ok s
  | I2COperation.transmit a cb d :: ops, s =>
    match i2c_transmit_async cap qcap fuel a cb d s with
    | .error f => .error f
    | .ok s1 => i2c_run_ops cap qcap fuel ops s1
  | I2COperation.busInterrupt st :: ops, s =>
    match ISR_TWI_vect cap qcap fuel st s with
    | .error f => .error f
    | .ok s1 => i2c_run_ops cap qcap fuel ops s1

/-- Addresses of the tasks removed (completed) so far, in order. -/
def removedAddrs (tr : List I2CEvent) : List Nat :=
  tr.filterMap (fun e => match e with
    | I2CEvent.taskRemoved a => some a
    | _ => none)

/-- Addresses of the tasks enqueued so far, in order. -/
def enqueuedAddrs (tr : List I2CEvent) : List Nat :=
  tr.filterMap (fun e => match e with
    | I2CEvent.taskEnqueued a => some a
    | _ => none)

/-- Addresses of the producer-callback invocations so far, in order. -/
def cbInvokeAddrs (tr : List I2CEvent) : List Nat :=
  tr.filterMap (fun e => match e with
    | I2CEvent.cbInvoke a => some a
    | _ => none)

/-- Well-formedness: the `uint8_t` counter `tasks_n` agrees with the number
of tasks stored in the ring buffer, the ring never holds more than its
capacity, and the completed tasks followed by the still-queued ones are
exactly the enqueued tasks, in order. -/
def queueWF {Ctx : Type} (qcap : Nat) (s : I2CState Ctx) : Prop :=
  s.tasks_n = s.tasks.length ∧
  s.tasks.length ≤ qcap ∧
  removedAddrs s.trace ++ s.tasks.map (fun t => t.address) =
    enqueuedAddrs s.trace

/-- The state held by a successful `Except` computation (default state
otherwise); used to name the result of a concrete run in witnesses. -/
def okState {Ctx : Type} (e : Except I2CFault (I2CState Ctx))
    (d : I2CState Ctx) : I2CState Ctx :=
  match e with
  | .ok s => s
  | .error _ => d

/- Concrete scenarios. -/

/-- A producer callback that appends `Start`, `SendData(address)`,
`SendData(0x01)`, `Stop` through the producer API and signals completion;
with task address `0xA0` this is the four-command stream of the spec's
end-to-end example. -/
def c1_callback : I2CCallback Unit := fun cap _ address back =>
  match i2c_async_send_start cap address back with
  | .error f => .error f
  | .ok b1 =>
    match i2c_async_send_byte cap 0x01 b1 with
    | .error f => .error f
    | .ok b2 =>
      match i2c_async_end_transmission cap b2 with
      | .error f => .error f
      | .ok b3 => .ok (b3, (), false)

/-- Enqueue the four-command task on the freshly initialized (idle, empty)
engine, then let the hardware drain it to completion. -/
def c1_run : Except I2CFault (I2CState Unit) :=
  match i2c_transmit_async 64 4 100 0xA0 c1_callback ()
      (i2c_init_state Unit) with
  | .error f => .error f
  | .ok s1 => i2c_drive 64 4 100 20 s1

/-- A state about to swap: front buffer fully consumed, back buffer filled
with a `Start`/address pair. -/
def c2_state : I2CState Unit where
  tasks := []
  front_buffer := [{ code := I2C_COMMAND_SEND_DATA, data := 5 }]
  back_buffer := [{ code := I2C_COMMAND_START, data := 0 },
    { code := I2C_COMMAND_SEND_DATA, data := 0x40 }]
  transmitter_active := true
  pending_buffer_switch := true
  tasks_n := 0
  front_buffer_cursor := 1
  current_command := { code := I2C_COMMAND_PENDING, data := 0 }
  trace := []
  int_enabled := true

/-- The state `c2_state` after the buffer swap. -/
def c2_state_swapped : I2CState Unit :=
  { c2_state with
    front_buffer := c2_state.back_buffer
    back_buffer := []
    pending_buffer_switch := false
    front_buffer_cursor := 0
    current_command := { code := I2C_COMMAND_START, data := 0 } }

/-- A parked-capable state: transmitter active, front buffer drained to its
end, current command `Pending`, no swap requested. -/
def c5_state : I2CState Unit where
  tasks := []
  front_buffer := [{ code := I2C_COMMAND_SEND_DATA, data := 5 }]
  back_buffer := []
  transmitter_active := true
  pending_buffer_switch := false
  tasks_n := 0
  front_buffer_cursor := 1
  current_command := { code := I2C_COMMAND_PENDING, data := 0 }
  trace := []
  int_enabled := true

/-- A transmitting state with one `SendData(7)` command left to process,
used to observe the interrupt handler on concrete statuses. -/
def c6_state : I2CState Unit where
  tasks := []
  front_buffer := [{ code := I2C_COMMAND_SEND_DATA, data := 7 }]
  back_buffer := []
  transmitter_active := true
  pending_buffer_switch := false
  tasks_n := 0
  front_buffer_cursor := 0
  current_command := { code := I2C_COMMAND_SEND_DATA, data := 7 }
  trace := []
  int_enabled := true

/-- Modelled from the spec: the "expected acknowledge set" of bus statuses
for a master-transmit transfer — start sent, repeated start sent, SLA+W
acknowledged, data byte acknowledged.  The spec names the set but does not
enumerate it (the enumeration lives in avr-libc's `util/twi.h`, outside
src/); this definition follows the spec's words and is compared against the
handler's actual accept condition. -/
def spec_tw_acknowledge_statuses : List Nat :=
  [TW_START, TW_REP_START, TW_MT_SLA_ACK, TW_MT_DATA_ACK]

/-- The 40-byte program-storage transfer of the spec's chunked-streaming
example: bytes 0..39 to address `0x78`, run to completion. -/
def c7_run : Except I2CFault (I2CState transmit_progmem_t) :=
  i2c_transmit_progmem 64 4 100 200 0x78 (List.range 40) 40
    (i2c_init_state transmit_progmem_t)

/-- A zero-length program-storage transfer, run to completion. -/
def c10_run : Except I2CFault (I2CState transmit_progmem_t) :=
  i2c_transmit_progmem 64 4 100 50 0x78 [] 0
    (i2c_init_state transmit_progmem_t)

/-- One call of the byte-emission API inside a producer invocation. -/
inductive ProducerOp where
  | sendByteOp (b : Nat)
  | sendBytesOp (bs : List Nat)

/-- Runs a sequence of `send_byte`/`send_bytes` calls against the back
buffer. -/
def runProducerOps (cap : Nat) :
    List ProducerOp → List I2CCommand → Except I2CFault (List I2CCommand)
  | [], back => .ok back
  | ProducerOp.sendByteOp b :: ops, back =>
    match i2c_async_send_byte cap b back with
    | .error f => .error f
    | .ok back1 => runProducerOps cap ops back1
  | ProducerOp.sendBytesOp bs :: ops, back =>
    match i2c_async_send_bytes cap bs back with
    | .error f => .error f
    | .ok back1 => runProducerOps cap ops back1

/-- A concrete operation sequence: enqueue the four-command task, then the
three data interrupts that drain it (start and each byte raise one interrupt
each; the statuses are the ones master-transmit hardware reports). -/
def c349_ops : List (I2COperation Unit) :=
  [I2COperation.transmit 0xA0 c1_callback (),
   I2COperation.busInterrupt TW_START,
   I2COperation.busInterrupt TW_MT_SLA_ACK,
   I2COperation.busInterrupt TW_MT_DATA_ACK]

/-- The final state of the concrete run `c349_ops` from the initialized
engine. -/
def c349_final : I2CState Unit :=
  okState (i2c_run_ops 64 4 100 c349_ops (i2c_init_state Unit))
    (i2c_init_state Unit)

/- Theorems. -/

/-- Claim C1: enqueuing, on the idle engine with nothing queued, a single
task whose producer appends exactly `Start`, `SendData(0xA0)`,
`SendData(0x01)`, `Stop` and signals completion makes the engine invoke
exactly the four bus primitives start, send-byte 0xA0, send-byte 0x01, stop,
in that order, after which `i2c_is_idle` returns true. -/
theorem c1_command_stream :
    (c1_run.map fun s => (busTrace s, i2c_is_idle s)) =
      .ok ([I2CEvent.busStart, I2CEvent.busSendByte 0xA0,
        I2CEvent.busSendByte 0x01, I2CEvent.busStop], true) := by
  rfl

/-- Claim C2: a buffer swap succeeds only when the back buffer is non-empty
and the front buffer is fully consumed, and afterwards the new front buffer
is the formerly filled back buffer with the cursor reset to 0 and the
current-command cache loaded from its position 0, while the new back buffer
is empty. -/
theorem c2_swap_protocol {Ctx : Type} (s s' : I2CState Ctx)
    (h : i2c_queue_switch_buffers s = .ok s') :
    (0 < s.back_buffer.length ∧
      s.front_buffer_cursor = s.front_buffer.length) ∧
    s'.front_buffer = s.back_buffer ∧
    s'.front_buffer_cursor = 0 ∧
    s'.current_command = s.back_buffer.getD 0 { code := 0, data := 0 } ∧
    s'.back_buffer = [] ∧
    s'.pending_buffer_switch = false := by
  unfold i2c_queue_switch_buffers at h
  split at h
  next => simp at h
  next h1 =>
    split at h
    next => simp at h
    next h2 =>
      cases h
      exact ⟨⟨Nat.pos_of_ne_zero h1, not_not.mp h2⟩, rfl, rfl, rfl, rfl, rfl⟩

/-- Witness for C2 at the concrete state `c2_state`. -/
theorem c2_swap_witness :
    (0 < c2_state.back_buffer.length ∧
      c2_state.front_buffer_cursor = c2_state.front_buffer.length) ∧
    c2_state_swapped.front_buffer = c2_state.back_buffer ∧
    c2_state_swapped.front_buffer_cursor = 0 ∧
    c2_state_swapped.current_command =
      c2_state.back_buffer.getD 0 { code := 0, data := 0 } ∧
    c2_state_swapped.back_buffer = [] ∧
    c2_state_swapped.pending_buffer_switch = false :=
  c2_swap_protocol c2_state c2_state_swapped rfl

/-- Claim C5: when the process-command step runs on a `Pending` current
command, then with the swap-requested flag false it records the
interrupt-disable primitive and deactivates the transmitter, changing
nothing else; with the flag true it swaps buffers, immediately processes the
reloaded current command in the same step, and then, if tasks remain queued,
runs the fetch cycle. -/
theorem c5_pending_step {Ctx : Type} (cap qcap fuel : Nat) (s : I2CState Ctx)
    (hact : s.transmitter_active = true)
    (hlen : 0 < s.front_buffer.length)
    (hcur : s.front_buffer_cursor ≤ s.front_buffer.length)
    (hpend : s.current_command.code = I2C_COMMAND_PENDING) :
    (s.pending_buffer_switch = false →
      i2c_queue_process_command cap qcap (fuel + 1) s =
        .ok { s with
          trace := s.trace ++ [I2CEvent.busDisableInt]
          int_enabled := false
          transmitter_active := false }) ∧
    (s.pending_buffer_switch = true →
      i2c_queue_process_command cap qcap (fuel + 1) s =
        match i2c_queue_switch_buffers s with
        | .error f => .error f
        | .ok s1 =>
          match i2c_queue_process_command cap qcap fuel s1 with
          | .error f => .error f
          | .ok s2 =>
            if 0 < s2.tasks_n then i2c_queue_fetch_commands cap qcap fuel s2
            else .ok s2) := by
  have h1 : ¬ s.transmitter_active = false := by simp [hact]
  have h2 : ¬ s.front_buffer.length = 0 := Nat.pos_iff_ne_zero.mp hlen
  have h3 : ¬ s.front_buffer.length < s.front_buffer_cursor :=
    Nat.not_lt.mpr hcur
  constructor
  · intro hpbs
    show engineStep cap qcap (fuel + 1) EngineCall.processCommand s = _
    rw [engineStep, if_neg h1, if_neg h2, if_neg h3, if_pos hpend,
      if_neg (by simp [hpbs])]
  · intro hpbs
    show engineStep cap qcap (fuel + 1) EngineCall.processCommand s = _
    rw [engineStep, if_neg h1, if_neg h2, if_neg h3, if_pos hpend,
      if_pos (by simp [hpbs])]
    rfl

/-- Witness for C5 at the concrete parked state `c5_state`. -/
theorem c5_pending_witness :
    i2c_queue_process_command 64 4 1 c5_state =
      .ok { c5_state with
        trace := c5_state.trace ++ [I2CEvent.busDisableInt]
        int_enabled := false
        transmitter_active := false } :=
  (c5_pending_step 64 4 0 c5_state rfl (by decide) (by decide) rfl).1 rfl

/-- Counterexample for C6: the bus-error status `TW_BUS_ERROR` (0x00) lies
outside the expected acknowledge set, yet the interrupt handler does not
fault on it: it proceeds to process the next command (here issuing a data
byte on the wire). -/
theorem c6_counterexample :
    spec_tw_acknowledge_statuses.contains TW_BUS_ERROR = false ∧
    (ISR_TWI_vect 64 4 5 TW_BUS_ERROR c6_state).map busTrace =
      .ok [I2CEvent.busSendByte 7] := by
  exact ⟨by decide, rfl⟩

/-- Claim C6 (amended): the interrupt handler reports a fatal fault carrying
the raw status code exactly for statuses above `TW_MT_DATA_ACK` (0x28) or
equal to `TW_MT_SLA_NACK` (0x20) — covering arbitration loss and both
no-acknowledge statuses but not the bus-error status 0x00 — and performs no
bus recovery; for every other status it proceeds to process the next
command. -/
theorem c6_bus_status_handling {Ctx : Type} (cap qcap fuel : Nat)
    (i2c_status : Nat) (s : I2CState Ctx) :
    (TW_MT_DATA_ACK < i2c_status ∨ i2c_status = TW_MT_SLA_NACK →
      ISR_TWI_vect cap qcap fuel i2c_status s =
        .error (.fault FaultCategory.FAULT_I2C i2c_status "Error status")) ∧
    (i2c_status ≤ TW_MT_DATA_ACK → ¬ i2c_status = TW_MT_SLA_NACK →
      ISR_TWI_vect cap qcap fuel i2c_status s =
        i2c_queue_process_command cap qcap fuel s) := by
  constructor
  · intro h
    unfold ISR_TWI_vect
    rw [if_pos h]
  · intro hle hne
    unfold ISR_TWI_vect
    rw [if_neg]
    push_neg
    exact ⟨Nat.not_lt.mp (by omega), hne⟩

/-- Witness for C6 at arbitration loss (faults with the raw status) and at
SLA acknowledge (proceeds). -/
theorem c6_status_witness :
    ISR_TWI_vect 64 4 5 TW_MT_ARB_LOST c6_state =
      .error (.fault FaultCategory.FAULT_I2C TW_MT_ARB_LOST
        "Error status") ∧
    ISR_TWI_vect 64 4 5 TW_MT_SLA_ACK c6_state =
      i2c_queue_process_command 64 4 5 c6_state :=
  ⟨(c6_bus_status_handling 64 4 5 TW_MT_ARB_LOST c6_state).1
      (Or.inl (by decide)),
    (c6_bus_status_handling 64 4 5 TW_MT_SLA_ACK c6_state).2
      (by decide) (by decide)⟩

/-- Counterexample for C7: the 40-byte program-storage transfer invokes the
producer callback four times, not three — the fourth invocation produces no
data bytes, appending only the `Stop` command and signalling completion. -/
theorem c7_counterexample :
    (c7_run.map fun s => (cbInvokeAddrs s.trace).length) = .ok 4 ∧
    (4 : Nat) ≠ 3 := by
  exact ⟨rfl, by decide⟩

/-- Claim C7 (amended): the 40-byte program-storage transfer with the
16-byte-per-invocation producer yields exactly four producer invocations,
producing 16, 16, 8 and 0 data bytes respectively (the fourth appends only
the `Stop` command and signals completion), the whole stream is bracketed by
exactly one `Start` command plus one address byte and exactly one `Stop`
command, and the 40 data bytes are transmitted in their original order. -/
theorem c7_chunked_streaming :
    i2c_transmit_progmem_cb 64
        { length := 40, counter := 0, data := List.range 40 } 0x78 [] =
      .ok ([{ code := I2C_COMMAND_START, data := 0 },
          { code := I2C_COMMAND_SEND_DATA, data := 0x78 }] ++
        (List.range 16).map
          (fun b => { code := I2C_COMMAND_SEND_DATA, data := b }),
        { length := 40, counter := 16, data := List.range 40 }, true) ∧
    i2c_transmit_progmem_cb 64
        { length := 40, counter := 16, data := List.range 40 } 0x78 [] =
      .ok ((List.take 16 (List.drop 16 (List.range 40))).map
          (fun b => { code := I2C_COMMAND_SEND_DATA, data := b }),
        { length := 40, counter := 32, data := List.range 40 }, true) ∧
    i2c_transmit_progmem_cb 64
        { length := 40, counter := 32, data := List.range 40 } 0x78 [] =
      .ok ((List.drop 32 (List.range 40)).map
          (fun b => { code := I2C_COMMAND_SEND_DATA, data := b }),
        { length := 40, counter := 40, data := List.range 40 }, true) ∧
    i2c_transmit_progmem_cb 64
        { length := 40, counter := 40, data := List.range 40 } 0x78 [] =
      .ok ([{ code := I2C_COMMAND_STOP, data := 0 }],
        { length := 40, counter := 0, data := List.range 40 }, false) ∧
    (c7_run.map fun s =>
        (busTrace s, (cbInvokeAddrs s.trace).length, i2c_is_idle s)) =
      .ok ([I2CEvent.busStart, I2CEvent.busSendByte 0x78] ++
        (List.range 40).map I2CEvent.busSendByte ++ [I2CEvent.busStop],
        4, true) := by
  exact ⟨rfl, rfl, rfl, rfl, rfl⟩

/-- Helper: a successful `i2c_async_send_byte` grew the back buffer by one
command and stayed within capacity. -/
theorem send_byte_length {cap b : Nat} {back back1 : List I2CCommand}
    (h : i2c_async_send_byte cap b back = .ok back1) :
    back1.length = back.length + 1 ∧ back.length + 1 ≤ cap := by
  unfold i2c_async_send_byte i2c_produce_command at h
  split at h
  next hc =>
    cases h
    constructor
    · simp
    · omega
  next => simp at h

/-- Helper: a successful `i2c_async_send_bytes` grew the back buffer by the
byte count and stayed within capacity. -/
theorem send_bytes_length {cap : Nat} {bs : List Nat}
    {back back1 : List I2CCommand}
    (h : i2c_async_send_bytes cap bs back = .ok back1) :
    back1.length = back.length + bs.length ∧
      back.length + bs.length ≤ cap := by
  unfold i2c_async_send_bytes at h
  split at h
  next => simp at h
  next =>
    split at h
    next hc =>
      cases h
      constructor
      · simp
      · omega
    next => simp at h

/-- Claim C8: over every sequence of `send_byte`/`send_bytes` calls within a
producer invocation the back buffer's length never exceeds the capacity, and
an individual append that would exceed the capacity is caught by the
precondition check and routed to the fault path. -/
theorem c8_capacity_invariant (cap : Nat) :
    (∀ (ops : List ProducerOp) (back back1 : List I2CCommand),
      back.length ≤ cap → runProducerOps cap ops back = .ok back1 →
      back1.length ≤ cap) ∧
    (∀ (b : Nat) (back : List I2CCommand), cap < back.length + 1 →
      i2c_async_send_byte cap b back =
        .error (.assertFail "back_buffer capacity 1")) ∧
    (∀ (bs : List Nat) (back : List I2CCommand), bs ≠ [] →
      cap < back.length + bs.length →
      i2c_async_send_bytes cap bs back =
        .error (.assertFail "back_buffer capacity n")) := by
  refine ⟨?_, ?_, ?_⟩
  · intro ops
    induction ops with
    | nil =>
      intro back back1 hle h
      unfold runProducerOps at h
      cases h
      exact hle
    | cons op rest ih =>
      intro back back1 hle h
      cases op with
      | sendByteOp b =>
        simp only [runProducerOps] at h
        revert h
        split
        next => intro h; simp at h
        next back2 heq =>
          intro h
          obtain ⟨he, hc⟩ := send_byte_length heq
          exact ih back2 back1 (by omega) h
      | sendBytesOp bs =>
        simp only [runProducerOps] at h
        revert h
        split
        next => intro h; simp at h
        next back2 heq =>
          intro h
          obtain ⟨he, hc⟩ := send_bytes_length heq
          exact ih back2 back1 (by omega) h
  · intro b back hover
    unfold i2c_async_send_byte i2c_produce_command
    rw [if_neg]
    omega
  · intro bs back hne hover
    have hbs : 0 < bs.length := List.length_pos.mpr hne
    unfold i2c_async_send_bytes
    rw [if_neg (by omega), if_neg (by omega)]

/-- Witness for C8: a one-byte append within capacity 2 succeeds and keeps
the length bound; a two-byte append at capacity 1 is routed to the fault
path. -/
theorem c8_capacity_witness :
    ([{ code := I2C_COMMAND_SEND_DATA, data := 9 }] :
      List I2CCommand).length ≤ 2 ∧
    i2c_async_send_bytes 1 [5, 6] [] =
      .error (.assertFail "back_buffer capacity n") :=
  ⟨(c8_capacity_invariant 2).1 [ProducerOp.sendByteOp 9] [] _ (by decide)
      rfl,
    (c8_capacity_invariant 1).2.2 [5, 6] [] (by decide) (by decide)⟩

/- Ghost-trace bookkeeping lemmas. -/

theorem removedAddrs_append (tr tr1 : List I2CEvent) :
    removedAddrs (tr ++ tr1) = removedAddrs tr ++ removedAddrs tr1 := by
  simp [removedAddrs]

theorem enqueuedAddrs_append (tr tr1 : List I2CEvent) :
    enqueuedAddrs (tr ++ tr1) = enqueuedAddrs tr ++ enqueuedAddrs tr1 := by
  simp [enqueuedAddrs]

theorem removedAddrs_busStart : removedAddrs [I2CEvent.busStart] = [] := rfl

theorem removedAddrs_busSendByte (b : Nat) :
    removedAddrs [I2CEvent.busSendByte b] = [] := rfl

theorem removedAddrs_busStop : removedAddrs [I2CEvent.busStop] = [] := rfl

theorem removedAddrs_busDisableInt :
    removedAddrs [I2CEvent.busDisableInt] = [] := rfl

theorem removedAddrs_cbInvoke (a : Nat) :
    removedAddrs [I2CEvent.cbInvoke a] = [] := rfl

theorem removedAddrs_taskEnqueued (a : Nat) :
    removedAddrs [I2CEvent.taskEnqueued a] = [] := rfl

theorem removedAddrs_taskRemoved (a : Nat) :
    removedAddrs [I2CEvent.taskRemoved a] = [a] := rfl

theorem enqueuedAddrs_busStart : enqueuedAddrs [I2CEvent.busStart] = [] := rfl

theorem enqueuedAddrs_busSendByte (b : Nat) :
    enqueuedAddrs [I2CEvent.busSendByte b] = [] := rfl

theorem enqueuedAddrs_busStop : enqueuedAddrs [I2CEvent.busStop] = [] := rfl

theorem enqueuedAddrs_busDisableInt :
    enqueuedAddrs [I2CEvent.busDisableInt] = [] := rfl

theorem enqueuedAddrs_cbInvoke (a : Nat) :
    enqueuedAddrs [I2CEvent.cbInvoke a] = [] := rfl

theorem enqueuedAddrs_taskEnqueued (a : Nat) :
    enqueuedAddrs [I2CEvent.taskEnqueued a] = [a] := rfl

theorem enqueuedAddrs_taskRemoved (a : Nat) :
    enqueuedAddrs [I2CEvent.taskRemoved a] = [] := rfl

/-- Well-formedness survives a trace extension by events that are neither
task enqueues nor task removals. -/
theorem queueWF_trace_neutral {Ctx : Type} {qcap : Nat} {s : I2CState Ctx}
    (hwf : queueWF qcap s) (tr1 : List I2CEvent)
    (hr : removedAddrs tr1 = []) (he : enqueuedAddrs tr1 = [])
    {s' : I2CState Ctx} (hts : s'.tasks = s.tasks)
    (htn : s'.tasks_n = s.tasks_n) (htr : s'.trace = s.trace ++ tr1) :
    queueWF qcap s' := by
  obtain ⟨h1, h2, h3⟩ := hwf
  refine ⟨?_, ?_, ?_⟩
  · rw [htn, hts, h1]
  · rw [hts]; exact h2
  · rw [htr, hts, removedAddrs_append, enqueuedAddrs_append, hr, he]
    simpa using h3

/-- The freshly initialized engine is well-formed. -/
theorem queueWF_init {Ctx : Type} (qcap : Nat) :
    queueWF qcap (i2c_init_state Ctx) :=
  ⟨rfl, Nat.zero_le _, rfl⟩

/-- A successful buffer swap preserves well-formedness (it touches no task
field and no trace). -/
theorem switch_buffers_wf {Ctx : Type} {qcap : Nat} {s s' : I2CState Ctx}
    (h : i2c_queue_switch_buffers s = .ok s') (hwf : queueWF qcap s) :
    queueWF qcap s' := by
  unfold i2c_queue_switch_buffers at h
  split at h
  next => simp at h
  next =>
    split at h
    next => simp at h
    next =>
      cases h
      exact hwf

/-- A successful task switch preserves well-formedness: the discard of the
head task and the decrement of `tasks_n` stay paired. -/
theorem switch_tasks_wf {Ctx : Type} {qcap : Nat} (hq : qcap ≤ 255)
    {s s' : I2CState Ctx} (h : i2c_queue_switch_tasks s = .ok s')
    (hwf : queueWF qcap s) : queueWF qcap s' := by
  obtain ⟨h1, h2, h3⟩ := hwf
  unfold i2c_queue_switch_tasks at h
  cases hts : s.tasks with
  | nil =>
    rw [hts] at h
    simp at h
  | cons t rest =>
    rw [hts] at h
    cases h
    rw [hts] at h1 h2 h3
    simp only [List.length_cons] at h1 h2
    refine ⟨?_, ?_, ?_⟩
    · simp only [h1]
      omega
    · simp only []
      omega
    · simp only [List.map_cons] at h3
      rw [removedAddrs_append, enqueuedAddrs_append, removedAddrs_taskRemoved,
        enqueuedAddrs_taskRemoved, List.append_nil, List.append_assoc,
        List.singleton_append]
      exact h3

/-- A successful command dispatch preserves well-formedness (it only records
a bus primitive and may clear the transmitter flag). -/
theorem dispatch_current_wf {Ctx : Type} {qcap : Nat} {s s' : I2CState Ctx}
    (h : i2c_dispatch_current s = .ok s') (hwf : queueWF qcap s) :
    queueWF qcap s' := by
  unfold i2c_dispatch_current at h
  split at h
  next =>
    cases h
    exact queueWF_trace_neutral hwf _ (removedAddrs_busSendByte _)
      (enqueuedAddrs_busSendByte _) rfl rfl rfl
  next =>
    split at h
    next =>
      cases h
      exact queueWF_trace_neutral hwf _ removedAddrs_busStart
        enqueuedAddrs_busStart rfl rfl rfl
    next =>
      split at h
      next =>
        cases h
        exact queueWF_trace_neutral hwf _ removedAddrs_busStop
          enqueuedAddrs_busStop rfl rfl rfl
      next => simp at h

/-- Every step of the state-machine cluster preserves well-formedness. -/
theorem engineStep_wf {Ctx : Type} {cap qcap : Nat} (hq : qcap ≤ 255) :
    ∀ (fuel : Nat) (call : EngineCall) (s s' : I2CState Ctx),
      engineStep cap qcap fuel call s = .ok s' →
      queueWF qcap s → queueWF qcap s' := by
  intro fuel
  induction fuel with
  | zero =>
    intro call s s' h
    simp [engineStep] at h
  | succ n ih =>
    intro call s s' h hwf
    cases call with
    | processCommand =>
      simp only [engineStep] at h
      split at h
      next => simp at h
      next =>
        split at h
        next => simp at h
        next =>
          split at h
          next => simp at h
          next =>
            split at h
            next =>
              -- current command is Pending
              split at h
              next =>
                -- swap requested: switch, process, maybe fetch
                split at h
                next => simp at h
                next s1 hs1 =>
                  split at h
                  next => simp at h
                  next s2 hs2 =>
                    have hw1 := switch_buffers_wf hs1 hwf
                    have hw2 := ih EngineCall.processCommand s1 s2 hs2 hw1
                    split at h
                    next => exact ih EngineCall.fetchCommands s2 s' h hw2
                    next =>
                      cases h
                      exact hw2
              next =>
                -- no swap requested: park
                cases h
                exact queueWF_trace_neutral hwf _ removedAddrs_busDisableInt
                  enqueuedAddrs_busDisableInt rfl rfl rfl
            next =>
              -- dispatch a real command
              split at h
              next => simp at h
              next s1 hs1 =>
                have hw1 := dispatch_current_wf hs1 hwf
                split at h
                next =>
                  -- cursor reached the end of the front buffer
                  split at h
                  next =>
                    -- swap scheduled
                    split at h
                    next => simp at h
                    next s2 hs2 =>
                      have hw2 : queueWF qcap s2 := switch_buffers_wf hs2 hw1
                      split at h
                      next => simp at h
                      next s3 hs3 =>
                        have hw3 : queueWF qcap s3 := by
                          revert hs3
                          split
                          · intro hs3
                            exact ih EngineCall.startTransmitter _ s3 hs3 hw2
                          · intro hs3
                            cases hs3
                            exact hw2
                        split at h
                        next => exact ih EngineCall.fetchCommands s3 s' h hw3
                        next =>
                          cases h
                          exact hw3
                  next =>
                    -- no swap scheduled: mark Pending
                    cases h
                    exact ⟨hw1.1, hw1.2.1, hw1.2.2⟩
                next =>
                  -- more commands in the front buffer
                  split at h
                  next => simp at h
                  next =>
                    cases h
                    exact ⟨hw1.1, hw1.2.1, hw1.2.2⟩
    | fetchCommands =>
      simp only [engineStep] at h
      split at h
      next => simp at h
      next =>
        split at h
        next => simp at h
        next => exact ih EngineCall.fetchLoop s s' h hwf
    | fetchLoop =>
      simp only [engineStep] at h
      split at h
      next =>
        cases h
        exact hwf
      next =>
        split at h
        next => simp at h
        next t rest hts =>
          split at h
          next => simp at h
          next =>
            split at h
            next => simp at h
            next back1 ctx1 keep hcb =>
              split at h
              next => simp at h
              next =>
                have hw1 : queueWF qcap { s with
                    back_buffer := back1
                    tasks := { t with data := ctx1 } :: rest
                    trace := s.trace ++ [I2CEvent.cbInvoke t.address] } := by
                  obtain ⟨h1, h2, h3⟩ := hwf
                  rw [hts] at h1 h2 h3
                  refine ⟨?_, ?_, ?_⟩
                  · simpa using h1
                  · simpa using h2
                  · simp only [List.map_cons] at h3 ⊢
                    rw [removedAddrs_append, enqueuedAddrs_append,
                      removedAddrs_cbInvoke, enqueuedAddrs_cbInvoke,
                      List.append_nil, List.append_nil]
                    exact h3
                split at h
                next => simp at h
                next s2 hs2 =>
                  have hw2 : queueWF qcap s2 := by
                    revert hs2
                    split
                    · intro hs2
                      exact switch_tasks_wf hq hs2 hw1
                    · intro hs2
                      cases hs2
                      exact hw1
                  split at h
                  next =>
                    -- transmitter inactive: swap, start, loop
                    split at h
                    next => simp at h
                    next s3 hs3 =>
                      have hw3 := switch_buffers_wf hs3 hw2
                      split at h
                      next => simp at h
                      next s4 hs4 =>
                        have hw4 :=
                          ih EngineCall.startTransmitter s3 s4 hs4 hw3
                        exact ih EngineCall.fetchLoop s4 s' h hw4
                  next =>
                    -- transmitter active: schedule the swap
                    cases h
                    exact ⟨hw2.1, hw2.2.1, hw2.2.2⟩
    | startTransmitter =>
      simp only [engineStep] at h
      split at h
      next => simp at h
      next =>
        split at h
        next => simp at h
        next =>
          exact ih EngineCall.processCommand _ s' h
            ⟨hwf.1, hwf.2.1, hwf.2.2⟩

/-- A successful `i2c_transmit_async` preserves well-formedness: the task
append and the `tasks_n` increment stay paired. -/
theorem transmit_async_wf {Ctx : Type} {cap qcap fuel : Nat}
    (hq : qcap ≤ 255) {a : Nat} {cb : I2CCallback Ctx} {d : Ctx}
    {s s' : I2CState Ctx}
    (h : i2c_transmit_async cap qcap fuel a cb d s = .ok s')
    (hwf : queueWF qcap s) : queueWF qcap s' := by
  simp only [i2c_transmit_async] at h
  split at h
  next => simp at h
  next hcap =>
    obtain ⟨h1, h2, h3⟩ := hwf
    have hlt : s.tasks.length < qcap := Nat.lt_of_not_le hcap
    have hw1 : queueWF qcap { s with
        tasks := s.tasks ++
          [{ callback := cb, data := d, address := a }]
        tasks_n := (s.tasks_n + 1) % 256
        trace := s.trace ++ [I2CEvent.taskEnqueued a] } := by
      refine ⟨?_, ?_, ?_⟩
      · simp only [List.length_append, List.length_cons, List.length_nil]
        omega
      · simp only [List.length_append, List.length_cons, List.length_nil]
        omega
      · simp only [List.map_append, List.map_cons, List.map_nil]
        rw [removedAddrs_append, enqueuedAddrs_append,
          removedAddrs_taskEnqueued, enqueuedAddrs_taskEnqueued,
          List.append_nil, ← List.append_assoc, h3]
    split at h
    next => exact engineStep_wf hq fuel EngineCall.fetchCommands _ s' h hw1
    next =>
      cases h
      exact hw1

/-- A successful interrupt-handler invocation preserves well-formedness. -/
theorem isr_wf {Ctx : Type} {cap qcap fuel st : Nat} (hq : qcap ≤ 255)
    {s s' : I2CState Ctx} (h : ISR_TWI_vect cap qcap fuel st s = .ok s')
    (hwf : queueWF qcap s) : queueWF qcap s' := by
  unfold ISR_TWI_vect i2c_queue_process_command at h
  split at h
  next => simp at h
  next => exact engineStep_wf hq fuel EngineCall.processCommand s s' h hwf

/-- Every successful run of externally triggered operations preserves
well-formedness. -/
theorem run_ops_wf {Ctx : Type} {cap qcap fuel : Nat} (hq : qcap ≤ 255) :
    ∀ (ops : List (I2COperation Ctx)) (s s' : I2CState Ctx),
      i2c_run_ops cap qcap fuel ops s = .ok s' →
      queueWF qcap s → queueWF qcap s' := by
  intro ops
  induction ops with
  | nil =>
    intro s s' h hwf
    simp only [i2c_run_ops] at h
    cases h
    exact hwf
  | cons op rest ih =>
    intro s s' h hwf
    cases op with
    | transmit a cb d =>
      simp only [i2c_run_ops] at h
      revert h
      split
      next => intro h; simp at h
      next s1 heq =>
        intro h
        exact ih s1 s' h (transmit_async_wf hq heq hwf)
    | busInterrupt st =>
      simp only [i2c_run_ops] at h
      revert h
      split
      next => intro h; simp at h
      next s1 heq =>
        intro h
        exact ih s1 s' h (isr_wf hq heq hwf)

/-- Claim C3: in every state reachable from initialization by an arbitrary
interleaving of enqueue and interrupt-driven drain operations, `i2c_is_idle`
returns true exactly when no task is queued and the transmitter-active flag
is false. -/
theorem c3_is_idle_iff {Ctx : Type} (cap qcap fuel : Nat) (hq : qcap ≤ 255)
    (ops : List (I2COperation Ctx)) (s' : I2CState Ctx)
    (h : i2c_run_ops cap qcap fuel ops (i2c_init_state Ctx) = .ok s') :
    i2c_is_idle s' = true ↔
      s'.tasks = [] ∧ s'.transmitter_active = false := by
  have hwf := run_ops_wf hq ops _ s' h (queueWF_init qcap)
  obtain ⟨h1, _, _⟩ := hwf
  simp [i2c_is_idle, h1, List.length_eq_zero, Bool.and_eq_true, and_comm]

/-- Witness for C3 at the concrete run `c349_ops`. -/
theorem c3_is_idle_witness :
    i2c_is_idle c349_final = true ↔
      c349_final.tasks = [] ∧ c349_final.transmitter_active = false :=
  c3_is_idle_iff 64 4 100 (by decide) c349_ops c349_final rfl

theorem cbInvokeAddrs_append (tr tr1 : List I2CEvent) :
    cbInvokeAddrs (tr ++ tr1) = cbInvokeAddrs tr ++ cbInvokeAddrs tr1 := by
  simp [cbInvokeAddrs]

theorem cbInvokeAddrs_cbInvoke (a : Nat) :
    cbInvokeAddrs [I2CEvent.cbInvoke a] = [a] := rfl

/-- A successful buffer swap leaves the trace unchanged. -/
theorem switch_buffers_trace {Ctx : Type} {s s' : I2CState Ctx}
    (h : i2c_queue_switch_buffers s = .ok s') : s'.trace = s.trace := by
  unfold i2c_queue_switch_buffers at h
  split at h
  next => simp at h
  next =>
    split at h
    next => simp at h
    next =>
      cases h
      rfl

/-- A successful task switch only appends to the trace. -/
theorem switch_tasks_trace {Ctx : Type} {s s' : I2CState Ctx}
    (h : i2c_queue_switch_tasks s = .ok s') :
    ∃ tr, s'.trace = s.trace ++ tr := by
  unfold i2c_queue_switch_tasks at h
  cases hts : s.tasks with
  | nil =>
    rw [hts] at h
    simp at h
  | cons t rest =>
    rw [hts] at h
    cases h
    exact ⟨_, rfl⟩

/-- A successful command dispatch only appends to the trace. -/
theorem dispatch_current_trace {Ctx : Type} {s s' : I2CState Ctx}
    (h : i2c_dispatch_current s = .ok s') :
    ∃ tr, s'.trace = s.trace ++ tr := by
  unfold i2c_dispatch_current at h
  split at h
  next =>
    cases h
    exact ⟨_, rfl⟩
  next =>
    split at h
    next =>
      cases h
      exact ⟨_, rfl⟩
    next =>
      split at h
      next =>
        cases h
        exact ⟨_, rfl⟩
      next => simp at h

/-- Chaining of trace extensions. -/
theorem trace_ext_trans {Ctx : Type} {s1 s2 s3 : I2CState Ctx}
    {tr1 tr2 : List I2CEvent} (h1 : s2.trace = s1.trace ++ tr1)
    (h2 : s3.trace = s2.trace ++ tr2) :
    s3.trace = s1.trace ++ (tr1 ++ tr2) := by
  rw [h2, h1, List.append_assoc]

/-- Every step of the state-machine cluster only appends to the ghost
trace. -/
theorem engineStep_trace_mono {Ctx : Type} {cap qcap : Nat} :
    ∀ (fuel : Nat) (call : EngineCall) (s s' : I2CState Ctx),
      engineStep cap qcap fuel call s = .ok s' →
      ∃ tr, s'.trace = s.trace ++ tr := by
  intro fuel
  induction fuel with
  | zero =>
    intro call s s' h
    simp [engineStep] at h
  | succ n ih =>
    intro call s s' h
    cases call with
    | processCommand =>
      simp only [engineStep] at h
      split at h
      next => simp at h
      next =>
        split at h
        next => simp at h
        next =>
          split at h
          next => simp at h
          next =>
            split at h
            next =>
              split at h
              next =>
                split at h
                next => simp at h
                next s1 hs1 =>
                  split at h
                  next => simp at h
                  next s2 hs2 =>
                    obtain ⟨tr2, e2⟩ := ih EngineCall.processCommand s1 s2 hs2
                    rw [switch_buffers_trace hs1] at e2
                    split at h
                    next =>
                      obtain ⟨tr3, e3⟩ :=
                        ih EngineCall.fetchCommands s2 s' h
                      exact ⟨_, trace_ext_trans e2 e3⟩
                    next =>
                      cases h
                      exact ⟨tr2, e2⟩
              next =>
                cases h
                exact ⟨_, rfl⟩
            next =>
              split at h
              next => simp at h
              next s1 hs1 =>
                obtain ⟨tr1, e1⟩ := dispatch_current_trace hs1
                split at h
                next =>
                  split at h
                  next =>
                    split at h
                    next => simp at h
                    next s2 hs2 =>
                      have e2 : s2.trace = s.trace ++ tr1 := by
                        rw [switch_buffers_trace hs2]
                        exact e1
                      split at h
                      next => simp at h
                      next s3 hs3 =>
                        have e3 : ∃ tr, s3.trace = s2.trace ++ tr := by
                          revert hs3
                          split
                          · intro hs3
                            exact ih EngineCall.startTransmitter _ s3 hs3
                          · intro hs3
                            cases hs3
                            exact ⟨[], by simp⟩
                        obtain ⟨tr3, e3⟩ := e3
                        split at h
                        next =>
                          obtain ⟨tr4, e4⟩ :=
                            ih EngineCall.fetchCommands s3 s' h
                          exact ⟨_, trace_ext_trans
                            (trace_ext_trans e2 e3) e4⟩
                        next =>
                          cases h
                          exact ⟨_, trace_ext_trans e2 e3⟩
                  next =>
                    cases h
                    exact ⟨tr1, e1⟩
                next =>
                  split at h
                  next => simp at h
                  next =>
                    cases h
                    exact ⟨tr1, e1⟩
    | fetchCommands =>
      simp only [engineStep] at h
      split at h
      next => simp at h
      next =>
        split at h
        next => simp at h
        next => exact ih EngineCall.fetchLoop s s' h
    | fetchLoop =>
      simp only [engineStep] at h
      split at h
      next =>
        cases h
        exact ⟨[], by simp⟩
      next =>
        split at h
        next => simp at h
        next t rest hts =>
          split at h
          next => simp at h
          next =>
            split at h
            next => simp at h
            next back1 ctx1 keep hcb =>
              split at h
              next => simp at h
              next =>
                split at h
                next => simp at h
                next s2 hs2 =>
                  have e2 : ∃ tr, s2.trace =
                      s.trace ++ ([I2CEvent.cbInvoke t.address] ++ tr) := by
                    revert hs2
                    split
                    · intro hs2
                      obtain ⟨tr2, e2⟩ := switch_tasks_trace hs2
                      exact ⟨tr2, by rw [e2, List.append_assoc]⟩
                    · intro hs2
                      cases hs2
                      exact ⟨[], by simp⟩
                  obtain ⟨tr2, e2⟩ := e2
                  split at h
                  next =>
                    split at h
                    next => simp at h
                    next s3 hs3 =>
                      have e3 : s3.trace = s2.trace :=
                        switch_buffers_trace hs3
                      split at h
                      next => simp at h
                      next s4 hs4 =>
                        obtain ⟨tr4, e4⟩ :=
                          ih EngineCall.startTransmitter s3 s4 hs4
                        obtain ⟨tr5, e5⟩ :=
                          ih EngineCall.fetchLoop s4 s' h
                        rw [e3] at e4
                        exact ⟨_, trace_ext_trans
                          (trace_ext_trans e2 e4) e5⟩
                  next =>
                    cases h
                    exact ⟨_, e2⟩
    | startTransmitter =>
      simp only [engineStep] at h
      split at h
      next => simp at h
      next =>
        split at h
        next => simp at h
        next =>
          exact ih EngineCall.processCommand
            { s with transmitter_active := true } s' h

/-- Inside a fetch-loop step, the producer callback invoked first is always
the one of the task at the head of the queue: any callback invocations the
step performs start with the head task's. -/
theorem fetchLoop_head_service {Ctx : Type} (cap qcap n : Nat)
    (s0 s0' : I2CState Ctx) (t : I2CTask Ctx) (ts : List (I2CTask Ctx))
    (hts : s0.tasks = t :: ts)
    (h : engineStep cap qcap (n + 1) EngineCall.fetchLoop s0 = .ok s0') :
    cbInvokeAddrs s0'.trace = cbInvokeAddrs s0.trace ∨
    ∃ tr, cbInvokeAddrs s0'.trace =
      cbInvokeAddrs s0.trace ++ t.address :: tr := by
  simp only [engineStep] at h
  split at h
  next =>
    cases h
    exact Or.inl rfl
  next =>
    split at h
    next heq =>
      rw [hts] at heq
      simp at heq
    next t1 rest1 heq =>
      rw [hts] at heq
      cases heq
      split at h
      next => simp at h
      next =>
        split at h
        next => simp at h
        next back1 ctx1 keep hcb =>
          split at h
          next => simp at h
          next =>
            split at h
            next => simp at h
            next s2 hs2 =>
              have e2 : ∃ tr, s2.trace =
                  s0.trace ++ ([I2CEvent.cbInvoke t.address] ++ tr) := by
                revert hs2
                split
                · intro hs2
                  obtain ⟨tr2, etr⟩ := switch_tasks_trace hs2
                  exact ⟨tr2, by rw [etr, List.append_assoc]⟩
                · intro hs2
                  cases hs2
                  exact ⟨[], by simp⟩
              obtain ⟨tr2, e2⟩ := e2
              have efin : ∃ tr, s0'.trace = s2.trace ++ tr := by
                split at h
                next =>
                  split at h
                  next => simp at h
                  next s3 hs3 =>
                    have e3 : s3.trace = s2.trace :=
                      switch_buffers_trace hs3
                    split at h
                    next => simp at h
                    next s4 hs4 =>
                      obtain ⟨tr4, e4⟩ :=
                        engineStep_trace_mono n
                          EngineCall.startTransmitter s3 s4 hs4
                      obtain ⟨tr5, e5⟩ :=
                        engineStep_trace_mono n EngineCall.fetchLoop s4 s0' h
                      rw [e3] at e4
                      exact ⟨_, trace_ext_trans e4 e5⟩
                next =>
                  cases h
                  exact ⟨[], by simp⟩
              obtain ⟨tr3, e3⟩ := efin
              refine Or.inr ⟨cbInvokeAddrs (tr2 ++ tr3), ?_⟩
              rw [e3, e2, List.append_assoc, ← List.append_assoc,
                cbInvokeAddrs_append, cbInvokeAddrs_append,
                cbInvokeAddrs_append, cbInvokeAddrs_cbInvoke]
              simp [cbInvokeAddrs_append]

/-- Claim C4: tasks are serviced and complete in enqueue (FIFO) order.
First, in every state reachable from initialization by an arbitrary
operation sequence, the addresses of the completed (removed) tasks followed
by the addresses of the still-queued tasks equal the enqueue sequence (in
particular the completion order is a prefix of the enqueue order, and a task
is removed exactly when its completion is recorded).  Second, whenever the
fetch cycle services tasks, the producer callback it invokes first is the
head task's — a task enqueued behind another is not serviced before the
head. -/
theorem c4_fifo_order {Ctx : Type} (cap qcap fuel : Nat) (hq : qcap ≤ 255)
    (ops : List (I2COperation Ctx)) (s' : I2CState Ctx)
    (h : i2c_run_ops cap qcap fuel ops (i2c_init_state Ctx) = .ok s') :
    (removedAddrs s'.trace ++ s'.tasks.map (fun t => t.address) =
      enqueuedAddrs s'.trace) ∧
    (∀ (n : Nat) (s0 s0' : I2CState Ctx) (t : I2CTask Ctx)
      (ts : List (I2CTask Ctx)), s0.tasks = t :: ts →
      engineStep cap qcap (n + 1) EngineCall.fetchLoop s0 = .ok s0' →
      cbInvokeAddrs s0'.trace = cbInvokeAddrs s0.trace ∨
      ∃ tr, cbInvokeAddrs s0'.trace =
        cbInvokeAddrs s0.trace ++ t.address :: tr) :=
  ⟨(run_ops_wf hq ops _ s' h (queueWF_init qcap)).2.2,
    fun n s0 s0' t ts hts h0 =>
      fetchLoop_head_service cap qcap n s0 s0' t ts hts h0⟩

/-- Witness for C4 at the concrete run `c349_ops`. -/
theorem c4_fifo_witness :
    removedAddrs c349_final.trace ++
        c349_final.tasks.map (fun t => t.address) =
      enqueuedAddrs c349_final.trace :=
  (c4_fifo_order 64 4 100 (by decide) c349_ops c349_final rfl).1

/-- Claim C9: `tasks_n` is 0 after initialization and, in every state
reachable from initialization by an arbitrary operation sequence, equals the
number of tasks stored in the ring buffer — the append/increment and
discard/decrement pairings never break the correspondence. -/
theorem c9_tasks_n_correspondence {Ctx : Type} (cap qcap fuel : Nat)
    (hq : qcap ≤ 255) (ops : List (I2COperation Ctx)) (s' : I2CState Ctx)
    (h : i2c_run_ops cap qcap fuel ops (i2c_init_state Ctx) = .ok s') :
    (i2c_init_state Ctx).tasks_n = 0 ∧
      s'.tasks_n = s'.tasks.length :=
  ⟨rfl, (run_ops_wf hq ops _ s' h (queueWF_init qcap)).1⟩

/-- Witness for C9 at the concrete run `c349_ops`. -/
theorem c9_tasks_n_witness :
    (i2c_init_state Unit).tasks_n = 0 ∧
      c349_final.tasks_n = c349_final.tasks.length :=
  c9_tasks_n_correspondence 64 4 100 (by decide) c349_ops c349_final rfl

/-- Claim C10: a zero-length program-storage transfer still produces a
non-empty stream: the single producer invocation appends `Start`, the
address byte and `Stop` and signals completion, and the wire sees exactly
start, address byte, stop. -/
theorem c10_zero_length_transfer :
    i2c_transmit_progmem_cb 64 { length := 0, counter := 0, data := [] }
        0x78 [] =
      .ok ([{ code := I2C_COMMAND_START, data := 0 },
        { code := I2C_COMMAND_SEND_DATA, data := 0x78 },
        { code := I2C_COMMAND_STOP, data := 0 }],
        { length := 0, counter := 0, data := [] }, false) ∧
    (c10_run.map fun s =>
        (busTrace s, (cbInvokeAddrs s.trace).length, i2c_is_idle s)) =
      .ok ([I2CEvent.busStart, I2CEvent.busSendByte 0x78,
        I2CEvent.busStop], 1, true) := by
  exact ⟨rfl, rfl⟩

end I2CAsync
